import Mathlib

/-!
Verification development for the setup-manager-hud worker: a shallow
embedding of the webhook validation, ingestion, history, stats, broadcast
and reconnect logic, with theorems checking the natural-language
specification against the embedded code.
-/

set_option maxRecDepth 8192

namespace SMH

/-! JavaScript number and JSON value model.  JS numbers are IEEE doubles;
we model the values relevant to the validation logic: NaN, the two
infinities, and finite values (as rationals, since every finite double is
rational and the code performs no arithmetic that could overflow). -/

inductive JsNum where
  | nan
  | posInf
  | negInf
  | finite (q : ℚ)
deriving DecidableEq

/-- A parsed JSON value (result of JSON.parse). -/
inductive Json where
  | null
  | bool (b : Bool)
  | num (v : JsNum)
  | str (s : String)
  | arr (elems : List Json)
  | obj (fields : List (String × Json))

/-- JS property read `x[k]` for the object-like values the validator
touches: `none` models `undefined`.  On arrays, numeric string keys read
the elements (the validator only ever asks for non-numeric keys there). -/
def jsGet : Json → String → Option Json
  | .obj fields, k => fields.lookup k
  | .arr elems, k => (elems.enum.find? (fun q => toString q.1 == k)).map Prod.snd
  | _, _ => none

/-- `Object.keys`: own enumerable keys (insertion order for objects,
index strings for arrays, empty for primitives). -/
def jsKeys : Json → List String
  | .obj fields => fields.map Prod.fst
  | .arr elems => (List.range elems.length).map toString
  | _ => []

/-- `typeof x === 'object' && x !== null`: true exactly for objects and
arrays (JSON `null` fails the null check, primitives fail the typeof). -/
def isObjectLikeJson : Json → Bool
  | .obj _ => true
  | .arr _ => true
  | _ => false

/-! Character-level helpers standing in for the JS string primitives used
by the validator (`String.prototype.trim`); Lean's own `String.trim` is
not kernel-reducible, so we work on the underlying character list. -/

def isJsSpace (c : Char) : Bool :=
  c == ' ' || c == '\t' || c == '\n' || c == '\r' || c == '\x0b' || c == '\x0c'

/-- `s.trim()` restricted to the common whitespace characters. -/
def jsTrim (s : String) : String :=
  ⟨((s.data.dropWhile isJsSpace).reverse.dropWhile isJsSpace).reverse⟩

/-! The validator from types.ts. -/

structure ValidationResult where
  valid : Bool
  error : Option String
deriving DecidableEq, Repr

def REQUIRED_BASE_FIELDS : List String :=
  ["name", "event", "timestamp", "started", "modelName", "modelIdentifier",
   "macOSBuild", "macOSVersion", "serialNumber", "setupManagerVersion"]

def VALID_EVENTS : List String :=
  ["com.jamf.setupmanager.started", "com.jamf.setupmanager.finished"]

def DANGEROUS_KEYS : List String := ["__proto__", "constructor", "prototype"]

/-- `isNonEmptyString`: a string whose trim has positive length.  The
argument is an optional JSON value (`none` = `undefined`). -/
def isNonEmptyString (v : Option Json) : Bool :=
  match v with
  | some (.str s) => !(jsTrim s).data.isEmpty
  | _ => false

/-- `isValidTimestamp`: non-empty string that the host date parser accepts.
The parser `new Date(...)`/`isNaN(getTime())` is host behaviour, passed in
as the parameter `dp`. -/
def isValidTimestamp (dp : String → Bool) (v : Option Json) : Bool :=
  match v with
  | some (.str s) => !(jsTrim s).data.isEmpty && dp s
  | _ => false

/-- `isNonNegativeNumber`: `typeof === 'number' && value >= 0 && isFinite`.
NaN fails the comparison, +inf fails `isFinite`, -inf fails the
comparison, so exactly the non-negative finite numbers pass. -/
def isNonNegativeNumber (v : Option Json) : Bool :=
  match v with
  | some (.num (.finite q)) => decide (0 ≤ q)
  | _ => false

/-- `hasDangerousKeys`: some own key is a prototype-pollution key. -/
def hasDangerousKeys (j : Json) : Bool :=
  (jsKeys j).any (fun k => DANGEROUS_KEYS.contains k)

/-- `action.status === 'finished' || action.status === 'failed'` -/
def statusIsValid (v : Option Json) : Bool :=
  match v with
  | some (.str s) => s == "finished" || s == "failed"
  | _ => false

/-- `isValidEnrollmentAction` -/
def isValidEnrollmentAction (a : Json) : Bool :=
  isObjectLikeJson a && !(hasDangerousKeys a) &&
    isNonEmptyString (jsGet a "label") && statusIsValid (jsGet a "status")

/-- optional field: `undefined` or a string (`typeof === 'string'`) -/
def isOptionalString (v : Option Json) : Bool :=
  match v with
  | none => true
  | some (.str _) => true
  | some _ => false

def USER_ENTRY_STRING_FIELDS : List String :=
  ["department", "computerName", "userID", "assetTag"]

/-- `isValidUserEntry` -/
def isValidUserEntry (u : Json) : Bool :=
  isObjectLikeJson u && !(hasDangerousKeys u) &&
    USER_ENTRY_STRING_FIELDS.all (fun f => isOptionalString (jsGet u f))

/-! The guards of `validateWebhookPayload`, one named definition per check,
in source order. -/

def eventIsStarted (p : Json) : Bool :=
  match jsGet p "event" with
  | some (.str s) => s == "com.jamf.setupmanager.started"
  | _ => false

def eventIsFinished (p : Json) : Bool :=
  match jsGet p "event" with
  | some (.str s) => s == "com.jamf.setupmanager.finished"
  | _ => false

def validEventType (p : Json) : Bool :=
  match jsGet p "event" with
  | some (.str s) => VALID_EVENTS.contains s
  | _ => false

def nameIs (p : Json) (n : String) : Bool :=
  match jsGet p "name" with
  | some (.str s) => s == n
  | _ => false

/-- first required base field that is missing or not a non-empty string -/
def missingBaseField (p : Json) : Option String :=
  REQUIRED_BASE_FIELDS.find? (fun f => !(isNonEmptyString (jsGet p f)))

def asArray (v : Option Json) : Option (List Json) :=
  match v with
  | some (.arr elems) => some elems
  | _ => none

/-- index of the first invalid enrollment action (for the error message) -/
def firstBadActionIdx (elems : List Json) : Option Nat :=
  (elems.enum.find? (fun q => !(isValidEnrollmentAction q.2))).map Prod.fst

def OPTIONAL_STRING_FIELDS : List String := ["jamfProVersion", "jssID", "computerName"]

/-- first optional top-level string field present with a non-string value -/
def badOptionalStringField (p : Json) : Option String :=
  OPTIONAL_STRING_FIELDS.find? (fun f => !(isOptionalString (jsGet p f)))

/-- `userEntry !== undefined && !isValidUserEntry(userEntry)` -/
def badUserEntry (p : Json) : Bool :=
  match jsGet p "userEntry" with
  | some u => !(isValidUserEntry u)
  | none => false

/-- The checks of `validateWebhookPayload` in source order, each paired
with the error message its early return produces.  A check whose
condition is `true` means the payload fails that check. -/
def webhookChecks (dp : String → Bool) (p : Json) : List (Bool × String) :=
  [ (!(isObjectLikeJson p), "Payload must be a non-null object"),
    (hasDangerousKeys p, "Payload contains forbidden property names"),
    (!(validEventType p), "Invalid event type"),
    ((missingBaseField p).isSome,
      "Missing or invalid required field: " ++ (missingBaseField p).getD ""),
    (!(isValidTimestamp dp (jsGet p "timestamp")), "Invalid timestamp format"),
    (!(isValidTimestamp dp (jsGet p "started")), "Invalid started timestamp format"),
    (eventIsStarted p && !(nameIs p "Started"),
      "name must be \"Started\" for started events"),
    (eventIsFinished p && !(nameIs p "Finished"),
      "name must be \"Finished\" for finished events"),
    (eventIsFinished p && !(isNonNegativeNumber (jsGet p "duration")),
      "duration must be a non-negative number"),
    (eventIsFinished p && !(isNonEmptyString (jsGet p "finished")),
      "Missing or invalid required field: finished"),
    (eventIsFinished p && !(isValidTimestamp dp (jsGet p "finished")),
      "Invalid finished timestamp format"),
    (eventIsFinished p && (jsGet p "enrollmentActions").isSome &&
        (asArray (jsGet p "enrollmentActions")).isNone,
      "enrollmentActions must be an array"),
    (eventIsFinished p &&
        !(((asArray (jsGet p "enrollmentActions")).getD []).all isValidEnrollmentAction),
      "Invalid enrollment action at index " ++
        toString ((firstBadActionIdx ((asArray (jsGet p "enrollmentActions")).getD [])).getD 0)),
    (eventIsFinished p && badUserEntry p, "Invalid userEntry object"),
    (eventIsFinished p && (jsGet p "uploadThroughput").isSome &&
        !(isNonNegativeNumber (jsGet p "uploadThroughput")),
      "uploadThroughput must be a non-negative number"),
    (eventIsFinished p && (jsGet p "downloadThroughput").isSome &&
        !(isNonNegativeNumber (jsGet p "downloadThroughput")),
      "downloadThroughput must be a non-negative number"),
    ((badOptionalStringField p).isSome,
      (badOptionalStringField p).getD "" ++ " must be a string if provided") ]

/-- `validateWebhookPayload` from types.ts: the first failing check (in
source order) yields `{valid: false}` with its message; if every check
passes the payload is valid.  `dp` is the host date parser used by
`isValidTimestamp`. -/
def validateWebhookPayload (dp : String → Bool) (p : Json) : ValidationResult :=
  match (webhookChecks dp p).find? (fun c => c.1) with
  | some c => ⟨false, some c.2⟩
  | none => ⟨true, none⟩

/-! Master lemmas: validity is equivalent to every check passing. -/

theorem valid_checks_false (dp : String → Bool) (p : Json)
    (h : (validateWebhookPayload dp p).valid = true) :
    ∀ c ∈ webhookChecks dp p, c.1 = false := by
  unfold validateWebhookPayload at h
  rcases hf : (webhookChecks dp p).find? (fun c => c.1) with _ | c
  · intro c hc
    have := List.find?_eq_none.mp hf c hc
    simpa using this
  · rw [hf] at h
    exact Bool.noConfusion h

theorem checks_false_valid (dp : String → Bool) (p : Json)
    (h : ∀ c ∈ webhookChecks dp p, c.1 = false) :
    (validateWebhookPayload dp p).valid = true := by
  unfold validateWebhookPayload
  rw [List.find?_eq_none.mpr (fun c hc => by simp [h c hc])]

theorem valid_isObjectLike (dp : String → Bool) (p : Json)
    (h : (validateWebhookPayload dp p).valid = true) : isObjectLikeJson p = true := by
  have := valid_checks_false dp p h
    (!(isObjectLikeJson p), "Payload must be a non-null object")
    (by simp [webhookChecks])
  simpa using this

theorem valid_no_dangerous (dp : String → Bool) (p : Json)
    (h : (validateWebhookPayload dp p).valid = true) : hasDangerousKeys p = false := by
  have := valid_checks_false dp p h
    (hasDangerousKeys p, "Payload contains forbidden property names")
    (by simp [webhookChecks])
  simpa using this

theorem valid_finished_duration (dp : String → Bool) (p : Json)
    (h : (validateWebhookPayload dp p).valid = true) (hf : eventIsFinished p = true) :
    isNonNegativeNumber (jsGet p "duration") = true := by
  have := valid_checks_false dp p h
    (eventIsFinished p && !(isNonNegativeNumber (jsGet p "duration")),
      "duration must be a non-negative number")
    (by simp [webhookChecks])
  simpa [hf] using this

theorem valid_finished_actions (dp : String → Bool) (p : Json)
    (h : (validateWebhookPayload dp p).valid = true) (hf : eventIsFinished p = true) :
    ((asArray (jsGet p "enrollmentActions")).getD []).all isValidEnrollmentAction = true := by
  have := valid_checks_false dp p h
    (eventIsFinished p &&
        !(((asArray (jsGet p "enrollmentActions")).getD []).all isValidEnrollmentAction),
      "Invalid enrollment action at index " ++
        toString ((firstBadActionIdx ((asArray (jsGet p "enrollmentActions")).getD [])).getD 0))
    (by simp [webhookChecks])
  simpa [hf] using this

theorem valid_finished_userEntry (dp : String → Bool) (p : Json)
    (h : (validateWebhookPayload dp p).valid = true) (hf : eventIsFinished p = true) :
    badUserEntry p = false := by
  have := valid_checks_false dp p h
    (eventIsFinished p && badUserEntry p, "Invalid userEntry object")
    (by simp [webhookChecks])
  simpa [hf] using this

/-! Concrete payloads used by witnesses and counterexamples. -/

/-- a host date parser accepting every string (concrete instantiation for
witnesses; the claims hold for every parser) -/
def acceptAllDates : String → Bool := fun _ => true

/-- a well-formed finished-event payload -/
def finishedPayloadOK : Json := Json.obj
  [ ("name", .str "Finished"),
    ("event", .str "com.jamf.setupmanager.finished"),
    ("timestamp", .str "2024-01-01T00:10:00Z"),
    ("started", .str "2024-01-01T00:00:00Z"),
    ("modelName", .str "MacBook Pro"),
    ("modelIdentifier", .str "Mac15,6"),
    ("macOSBuild", .str "23A344"),
    ("macOSVersion", .str "14.0"),
    ("serialNumber", .str "C02TEST123"),
    ("setupManagerVersion", .str "1.1"),
    ("duration", .num (.finite 600)),
    ("finished", .str "2024-01-01T00:10:00Z"),
    ("enrollmentActions", .arr
      [ .obj [("label", .str "Install"), ("status", .str "finished")] ]),
    ("userEntry", .obj [("department", .str "IT")]) ]

/-- a well-formed started-event payload carrying an (unvalidated)
`enrollmentActions` array whose element has a `__proto__` key -/
def startedPayloadPolluted : Json := Json.obj
  [ ("name", .str "Started"),
    ("event", .str "com.jamf.setupmanager.started"),
    ("timestamp", .str "2024-01-01T00:00:00Z"),
    ("started", .str "2024-01-01T00:00:00Z"),
    ("modelName", .str "MacBook Pro"),
    ("modelIdentifier", .str "Mac15,6"),
    ("macOSBuild", .str "23A344"),
    ("macOSVersion", .str "14.0"),
    ("serialNumber", .str "C02TEST123"),
    ("setupManagerVersion", .str "1.1"),
    ("enrollmentActions", .arr
      [ .obj [("__proto__", .str "x"), ("label", .str "L"), ("status", .str "finished")] ]) ]

/-- a finished-event payload whose `userEntry` has a `constructor` key -/
def finishedPayloadPollutedUser : Json := Json.obj
  [ ("event", .str "com.jamf.setupmanager.finished"),
    ("userEntry", .obj [("constructor", .str "y")]) ]

/-- C5 (amended): a payload with a dangerous own key at top level is
rejected, and for finished-event payloads a dangerous own key in an
`enrollmentActions` element or in the `userEntry` object is rejected.
(The original claim also covered those nested levels on non-finished
payloads, where the validator does not look at them.) -/
theorem dangerousKeys_rejected (dp : String → Bool) (p : Json) :
    (hasDangerousKeys p = true → (validateWebhookPayload dp p).valid = false) ∧
    (eventIsFinished p = true →
      (∀ elems, jsGet p "enrollmentActions" = some (.arr elems) →
        ∀ a ∈ elems, hasDangerousKeys a = true →
          (validateWebhookPayload dp p).valid = false) ∧
      (∀ u, jsGet p "userEntry" = some u → hasDangerousKeys u = true →
        (validateWebhookPayload dp p).valid = false)) := by
  refine ⟨?_, fun hf => ⟨?_, ?_⟩⟩
  · intro hd
    cases hv : (validateWebhookPayload dp p).valid
    · rfl
    · have := valid_no_dangerous dp p hv
      rw [hd] at this
      exact Bool.noConfusion this
  · intro elems he a ha hda
    cases hv : (validateWebhookPayload dp p).valid
    · rfl
    · have hall := valid_finished_actions dp p hv hf
      rw [he] at hall
      simp only [asArray, Option.getD_some] at hall
      have hva := List.all_eq_true.mp hall a ha
      unfold isValidEnrollmentAction at hva
      rw [hda] at hva
      simp at hva
  · intro u hu hdu
    cases hv : (validateWebhookPayload dp p).valid
    · rfl
    · have hbu := valid_finished_userEntry dp p hv hf
      unfold badUserEntry at hbu
      rw [hu] at hbu
      simp only [Bool.not_eq_false'] at hbu
      unfold isValidUserEntry at hbu
      rw [hdu] at hbu
      simp at hbu

/-- C5 counterexample to the claim as stated: a started-event payload
whose `enrollmentActions` array contains an element with an own
`__proto__` key is accepted by `validateWebhookPayload` (the validator
only inspects `enrollmentActions` for finished events). -/
theorem dangerousKeys_claim_cex :
    (∃ elems, jsGet startedPayloadPolluted "enrollmentActions" = some (.arr elems) ∧
      ∃ a ∈ elems, hasDangerousKeys a = true) ∧
    (validateWebhookPayload acceptAllDates startedPayloadPolluted).valid = true := by
  constructor
  · exact ⟨_, rfl, Json.obj [("__proto__", .str "x"), ("label", .str "L"),
      ("status", .str "finished")], by simp, by rfl⟩
  · rfl

/-- C5 witness: the amended theorem applied to concrete payloads. -/
theorem dangerousKeys_rejected_witness :
    (validateWebhookPayload acceptAllDates (Json.obj [("__proto__", .str "x")])).valid = false ∧
    (validateWebhookPayload acceptAllDates finishedPayloadPollutedUser).valid = false := by
  constructor
  · exact (dangerousKeys_rejected acceptAllDates (Json.obj [("__proto__", .str "x")])).1 rfl
  · exact ((dangerousKeys_rejected acceptAllDates finishedPayloadPollutedUser).2 rfl).2
      (Json.obj [("constructor", .str "y")]) rfl rfl

/-! Field update on JSON objects (`obj[k] = v` in JS), used to state
"the same payload with duration 0". -/

def setAssoc : List (String × Json) → String → Json → List (String × Json)
  | [], k, v => [(k, v)]
  | (k', v') :: rest, k, v =>
      if k' = k then (k, v) :: rest else (k', v') :: setAssoc rest k v

def jsSet : Json → String → Json → Json
  | .obj fields, k, v => .obj (setAssoc fields k v)
  | j, _, _ => j

theorem lookup_setAssoc_self (fs : List (String × Json)) (k : String) (v : Json) :
    (setAssoc fs k v).lookup k = some v := by
  induction fs with
  | nil => simp [setAssoc, List.lookup]
  | cons hd tl ih =>
      obtain ⟨k', v'⟩ := hd
      by_cases h : k' = k
      · simp [setAssoc, h, List.lookup]
      · simp only [setAssoc, h, if_false, List.lookup]
        rw [beq_eq_false_iff_ne.mpr (Ne.symm h)]
        exact ih

theorem lookup_setAssoc_ne (fs : List (String × Json)) (k : String) (v : Json)
    (k' : String) (h : k' ≠ k) :
    (setAssoc fs k v).lookup k' = fs.lookup k' := by
  induction fs with
  | nil => simp [setAssoc, List.lookup, beq_eq_false_iff_ne.mpr h]
  | cons hd tl ih =>
      obtain ⟨a, b⟩ := hd
      by_cases ha : a = k
      · subst ha
        simp [setAssoc, List.lookup, beq_eq_false_iff_ne.mpr h]
      · simp only [setAssoc, ha, if_false, List.lookup]
        cases hba : (k' == a) <;> simp [ih]

theorem mapFst_setAssoc (fs : List (String × Json)) (k : String) (v : Json)
    (h : k ∈ fs.map Prod.fst) :
    (setAssoc fs k v).map Prod.fst = fs.map Prod.fst := by
  induction fs with
  | nil => simp at h
  | cons hd tl ih =>
      obtain ⟨a, b⟩ := hd
      by_cases ha : a = k
      · simp [setAssoc, ha]
      · have : k ∈ tl.map Prod.fst := by
          simp only [List.map_cons, List.mem_cons] at h
          rcases h with h | h
          · exact absurd h.symm ha
          · exact h
        simp [setAssoc, ha, ih this]

theorem mem_mapFst_of_lookup {fs : List (String × Json)} {k : String} {x : Json}
    (h : fs.lookup k = some x) : k ∈ fs.map Prod.fst := by
  induction fs with
  | nil => simp [List.lookup] at h
  | cons hd tl ih =>
      obtain ⟨a, b⟩ := hd
      simp only [List.lookup] at h
      cases hka : (k == a) with
      | true =>
          have : k = a := by simpa using hka
          simp [this]
      | false =>
          rw [hka] at h
          simp only [List.map_cons, List.mem_cons]
          exact Or.inr (ih h)

theorem jsGet_jsSet_self (fs : List (String × Json)) (k : String) (v : Json) :
    jsGet (jsSet (.obj fs) k v) k = some v := by
  simp [jsSet, jsGet, lookup_setAssoc_self]

theorem jsGet_jsSet_ne (fs : List (String × Json)) (k : String) (v : Json)
    (f : String) (h : f ≠ k) :
    jsGet (jsSet (.obj fs) k v) f = jsGet (.obj fs) f := by
  simp [jsSet, jsGet, lookup_setAssoc_ne _ _ _ _ h]

theorem jsKeys_jsSet (fs : List (String × Json)) (k : String) (v : Json)
    (h : k ∈ fs.map Prod.fst) :
    jsKeys (jsSet (.obj fs) k v) = jsKeys (.obj fs) := by
  simp [jsSet, jsKeys, mapFst_setAssoc _ _ _ h]

theorem find?_congrPred {α : Type} (l : List α) (f g : α → Bool)
    (h : ∀ x ∈ l, f x = g x) : l.find? f = l.find? g := by
  induction l with
  | nil => rfl
  | cons hd tl ih =>
      simp only [List.find?]
      rw [h hd (List.mem_cons_self hd tl)]
      cases g hd
      · exact ih fun x hx => h x (List.mem_cons_of_mem hd hx)
      · rfl

/-- Validity is preserved when the duration field of a finished-event
object payload is overwritten with 0: every other check reads other
fields (or the key set, which is unchanged), and 0 passes the duration
check. -/
theorem duration_stability (dp : String → Bool) (fs : List (String × Json))
    (hv : (validateWebhookPayload dp (.obj fs)).valid = true)
    (hf : eventIsFinished (.obj fs) = true) :
    (validateWebhookPayload dp (jsSet (.obj fs) "duration" (.num (.finite 0)))).valid = true := by
  set p : Json := .obj fs with hp
  set p' : Json := jsSet p "duration" (.num (.finite 0)) with hp'
  have hall := valid_checks_false dp p hv
  have hnn := valid_finished_duration dp p hv hf
  have hdmem : "duration" ∈ fs.map Prod.fst := by
    rcases hget : jsGet p "duration" with _ | w
    · rw [hget] at hnn
      simp [isNonNegativeNumber] at hnn
    · exact mem_mapFst_of_lookup hget
  have hget : ∀ f, f ≠ "duration" → jsGet p' f = jsGet p f := by
    intro f hfne
    exact jsGet_jsSet_ne fs _ _ f hfne
  have hd0 : jsGet p' "duration" = some (.num (.finite 0)) := jsGet_jsSet_self fs _ _
  have hkeys : jsKeys p' = jsKeys p := jsKeys_jsSet fs _ _ hdmem
  have hdang : hasDangerousKeys p' = hasDangerousKeys p := by
    unfold hasDangerousKeys; rw [hkeys]
  have heF : eventIsFinished p' = eventIsFinished p := by
    unfold eventIsFinished; rw [hget "event" (by decide)]
  have heS : eventIsStarted p' = eventIsStarted p := by
    unfold eventIsStarted; rw [hget "event" (by decide)]
  have hvet : validEventType p' = validEventType p := by
    unfold validEventType; rw [hget "event" (by decide)]
  have hname : ∀ n, nameIs p' n = nameIs p n := by
    intro n; unfold nameIs; rw [hget "name" (by decide)]
  have hmbf : missingBaseField p' = missingBaseField p := by
    unfold missingBaseField
    apply find?_congrPred
    intro f hfm
    simp only [REQUIRED_BASE_FIELDS, List.mem_cons, List.not_mem_nil, or_false] at hfm
    rcases hfm with rfl|rfl|rfl|rfl|rfl|rfl|rfl|rfl|rfl|rfl <;>
      rw [hget _ (by decide)]
  have hbos : badOptionalStringField p' = badOptionalStringField p := by
    unfold badOptionalStringField
    apply find?_congrPred
    intro f hfm
    simp only [OPTIONAL_STRING_FIELDS, List.mem_cons, List.not_mem_nil, or_false] at hfm
    rcases hfm with rfl|rfl|rfl <;> rw [hget _ (by decide)]
  have hbu : badUserEntry p' = badUserEntry p := by
    unfold badUserEntry; rw [hget "userEntry" (by decide)]
  apply checks_false_valid
  intro c hc
  simp only [webhookChecks, List.mem_cons, List.not_mem_nil, or_false] at hc
  rcases hc with rfl|rfl|rfl|rfl|rfl|rfl|rfl|rfl|rfl|rfl|rfl|rfl|rfl|rfl|rfl|rfl|rfl
  · rfl
  · show hasDangerousKeys p' = false
    rw [hdang]
    exact hall (hasDangerousKeys p, "Payload contains forbidden property names")
      (by simp [webhookChecks])
  · show (!(validEventType p')) = false
    rw [hvet]
    exact hall (!(validEventType p), "Invalid event type") (by simp [webhookChecks])
  · show (missingBaseField p').isSome = false
    rw [hmbf]
    exact hall ((missingBaseField p).isSome,
      "Missing or invalid required field: " ++ (missingBaseField p).getD "")
      (by simp [webhookChecks])
  · show (!(isValidTimestamp dp (jsGet p' "timestamp"))) = false
    rw [hget _ (by decide)]
    exact hall (!(isValidTimestamp dp (jsGet p "timestamp")), "Invalid timestamp format")
      (by simp [webhookChecks])
  · show (!(isValidTimestamp dp (jsGet p' "started"))) = false
    rw [hget _ (by decide)]
    exact hall (!(isValidTimestamp dp (jsGet p "started")), "Invalid started timestamp format")
      (by simp [webhookChecks])
  · show (eventIsStarted p' && !(nameIs p' "Started")) = false
    rw [heS, hname]
    exact hall (eventIsStarted p && !(nameIs p "Started"),
      "name must be \"Started\" for started events") (by simp [webhookChecks])
  · show (eventIsFinished p' && !(nameIs p' "Finished")) = false
    rw [heF, hname]
    exact hall (eventIsFinished p && !(nameIs p "Finished"),
      "name must be \"Finished\" for finished events") (by simp [webhookChecks])
  · show (eventIsFinished p' && !(isNonNegativeNumber (jsGet p' "duration"))) = false
    rw [hd0]
    simp [isNonNegativeNumber]
  · show (eventIsFinished p' && !(isNonEmptyString (jsGet p' "finished"))) = false
    rw [heF, hget _ (by decide)]
    exact hall (eventIsFinished p && !(isNonEmptyString (jsGet p "finished")),
      "Missing or invalid required field: finished") (by simp [webhookChecks])
  · show (eventIsFinished p' && !(isValidTimestamp dp (jsGet p' "finished"))) = false
    rw [heF, hget _ (by decide)]
    exact hall (eventIsFinished p && !(isValidTimestamp dp (jsGet p "finished")),
      "Invalid finished timestamp format") (by simp [webhookChecks])
  · show (eventIsFinished p' && (jsGet p' "enrollmentActions").isSome &&
        (asArray (jsGet p' "enrollmentActions")).isNone) = false
    rw [heF, hget _ (by decide)]
    exact hall (eventIsFinished p && (jsGet p "enrollmentActions").isSome &&
        (asArray (jsGet p "enrollmentActions")).isNone,
      "enrollmentActions must be an array") (by simp [webhookChecks])
  · show (eventIsFinished p' &&
        !(((asArray (jsGet p' "enrollmentActions")).getD []).all isValidEnrollmentAction)) = false
    rw [heF, hget _ (by decide)]
    exact hall (eventIsFinished p &&
        !(((asArray (jsGet p "enrollmentActions")).getD []).all isValidEnrollmentAction),
      "Invalid enrollment action at index " ++
        toString ((firstBadActionIdx ((asArray (jsGet p "enrollmentActions")).getD [])).getD 0))
      (by simp [webhookChecks])
  · show (eventIsFinished p' && badUserEntry p') = false
    rw [heF, hbu]
    exact hall (eventIsFinished p && badUserEntry p, "Invalid userEntry object")
      (by simp [webhookChecks])
  · show (eventIsFinished p' && (jsGet p' "uploadThroughput").isSome &&
        !(isNonNegativeNumber (jsGet p' "uploadThroughput"))) = false
    rw [heF, hget _ (by decide)]
    exact hall (eventIsFinished p && (jsGet p "uploadThroughput").isSome &&
        !(isNonNegativeNumber (jsGet p "uploadThroughput")),
      "uploadThroughput must be a non-negative number") (by simp [webhookChecks])
  · show (eventIsFinished p' && (jsGet p' "downloadThroughput").isSome &&
        !(isNonNegativeNumber (jsGet p' "downloadThroughput"))) = false
    rw [heF, hget _ (by decide)]
    exact hall (eventIsFinished p && (jsGet p "downloadThroughput").isSome &&
        !(isNonNegativeNumber (jsGet p "downloadThroughput")),
      "downloadThroughput must be a non-negative number") (by simp [webhookChecks])
  · show (badOptionalStringField p').isSome = false
    rw [hbos]
    exact hall ((badOptionalStringField p).isSome,
      (badOptionalStringField p).getD "" ++ " must be a string if provided")
      (by simp [webhookChecks])

/-- C6: for every finished-event payload, `validateWebhookPayload`
rejects when the duration field is missing, NaN, infinite, negative, or
not a number; and an otherwise-valid finished payload is still accepted
when its duration is replaced by 0. -/
theorem duration_checks (dp : String → Bool) (p : Json) :
    (eventIsFinished p = true →
      ((jsGet p "duration" = none → (validateWebhookPayload dp p).valid = false) ∧
       (∀ v, jsGet p "duration" = some v →
         (v = .num .nan ∨ v = .num .posInf ∨ v = .num .negInf ∨
            (∃ q : ℚ, q < 0 ∧ v = .num (.finite q)) ∨ (∀ w, v ≠ .num w)) →
         (validateWebhookPayload dp p).valid = false))) ∧
    ((validateWebhookPayload dp p).valid = true → eventIsFinished p = true →
      (validateWebhookPayload dp (jsSet p "duration" (.num (.finite 0)))).valid = true) := by
  constructor
  · intro hf
    constructor
    · intro hnone
      cases hv : (validateWebhookPayload dp p).valid
      · rfl
      · have hnn := valid_finished_duration dp p hv hf
        rw [hnone] at hnn
        exact Bool.noConfusion hnn
    · intro v hsome hcase
      cases hv : (validateWebhookPayload dp p).valid
      · rfl
      · have hnn := valid_finished_duration dp p hv hf
        rw [hsome] at hnn
        rcases hcase with rfl | rfl | rfl | ⟨q, hq, rfl⟩ | hnotnum
        · exact Bool.noConfusion hnn
        · exact Bool.noConfusion hnn
        · exact Bool.noConfusion hnn
        · simp only [isNonNegativeNumber, decide_eq_true_eq] at hnn
          exact absurd hnn (not_le.mpr hq)
        · cases v with
          | num w => exact absurd rfl (hnotnum w)
          | null => exact Bool.noConfusion hnn
          | bool b => exact Bool.noConfusion hnn
          | str s => exact Bool.noConfusion hnn
          | arr es => exact Bool.noConfusion hnn
          | obj fs => exact Bool.noConfusion hnn
  · intro hv hf
    cases p with
    | obj fs => exact duration_stability dp fs hv hf
    | arr es => exact hv
    | null => exact Bool.noConfusion (valid_isObjectLike dp _ hv)
    | bool b => exact Bool.noConfusion (valid_isObjectLike dp _ hv)
    | num v => exact Bool.noConfusion (valid_isObjectLike dp _ hv)
    | str s => exact Bool.noConfusion (valid_isObjectLike dp _ hv)

/-- C6 witness: a finished payload with duration -5 is rejected; the same
payload with duration 0 is accepted. -/
theorem duration_checks_witness :
    (validateWebhookPayload acceptAllDates
      (jsSet finishedPayloadOK "duration" (.num (.finite (-5))))).valid = false ∧
    (validateWebhookPayload acceptAllDates
      (jsSet finishedPayloadOK "duration" (.num (.finite 0)))).valid = true := by
  constructor
  · exact ((duration_checks acceptAllDates
      (jsSet finishedPayloadOK "duration" (.num (.finite (-5))))).1 (by rfl)).2
      (.num (.finite (-5))) (by rfl)
      (Or.inr (Or.inr (Or.inr (Or.inl ⟨-5, by norm_num, rfl⟩))))
  · exact (duration_checks acceptAllDates finishedPayloadOK).2 (by rfl) (by rfl)

/-- C9: `validateWebhookPayload` is total over all JSON inputs and always
returns a well-formed result: either `{valid := true}` with no error, or
`{valid := false}` with an error message.  (Being a Lean function of the
payload it is inherently side-effect free.) -/
theorem validate_total (dp : String → Bool) (p : Json) :
    ((validateWebhookPayload dp p).valid = true ∧
      (validateWebhookPayload dp p).error = none) ∨
    ((validateWebhookPayload dp p).valid = false ∧
      ∃ s, (validateWebhookPayload dp p).error = some s) := by
  rcases hf : (webhookChecks dp p).find? (fun c => c.1) with _ | c
  · left
    constructor <;> (unfold validateWebhookPayload; rw [hf])
  · right
    refine ⟨?_, c.2, ?_⟩ <;> (unfold validateWebhookPayload; rw [hf])

/-! `Math.max` / `Math.min` on JS numbers: NaN propagates, otherwise the
usual order with -inf below and +inf above all finite values. -/

def jsMax : JsNum → JsNum → JsNum
  | .nan, _ => .nan
  | _, .nan => .nan
  | .posInf, _ => .posInf
  | _, .posInf => .posInf
  | .negInf, b => b
  | a, .negInf => a
  | .finite p, .finite q => .finite (max p q)

def jsMin : JsNum → JsNum → JsNum
  | .nan, _ => .nan
  | _, .nan => .nan
  | .negInf, _ => .negInf
  | _, .negInf => .negInf
  | .posInf, b => b
  | a, .posInf => a
  | .finite p, .finite q => .finite (min p q)

/-- WebSocket `request-history` limit (DashboardRoom.webSocketMessage):
`typeof data.limit === "number" ? Math.min(Math.max(data.limit, 1), 200) : 200`.
The argument is the JSON value of `data.limit` (`none` = absent). -/
def requestHistoryLimit (limit : Option Json) : JsNum :=
  match limit with
  | some (.num v) => jsMin (jsMax v (.finite 1)) (.finite 200)
  | _ => .finite 200

/-- leading decimal digits value, `none` when there are none -/
def digitsVal (cs : List Char) : Option Nat :=
  let ds := cs.takeWhile (fun c => c.isDigit)
  if ds.isEmpty then none
  else some (ds.foldl (fun acc c => acc * 10 + (c.toNat - '0'.toNat)) 0)

/-- `parseInt(s, 10)`: skip leading whitespace, optional sign, then the
longest prefix of decimal digits; `none` models NaN. -/
def parseIntJs (s : String) : Option Int :=
  match s.data.dropWhile isJsSpace with
  | '-' :: r => (digitsVal r).map (fun n => -(n : Int))
  | '+' :: r => (digitsVal r).map (fun n => (n : Int))
  | r => (digitsVal r).map (fun n => (n : Int))

/-- `parseInt(limitParam || "100", 10) || 100` then clamp to [1, 1000]:
a parse result of NaN or 0 falls back to the default 100. -/
def httpClampDefault (r : Option Int) : Int :=
  match r with
  | none => 100
  | some n => if n = 0 then 100 else min (max n 1) 1000

/-- GET /api/events limit (handleEvents):
`Math.min(Math.max(parseInt(limitParam || "100", 10) || 100, 1), 1000)`.
`none` = no limit query parameter (and the empty string is falsy). -/
def handleEventsLimit (limitParam : Option String) : Int :=
  let s := match limitParam with
    | none => "100"
    | some t => if t = "" then "100" else t
  httpClampDefault (parseIntJs s)

/-- C2 (amended): a finite numeric WebSocket limit is clamped to [1,200]
(absent or non-numeric gives 200); over HTTP a limit parsing to a nonzero
integer is clamped to [1,1000], while 0 or an unparseable value falls
back to the default 100; 0 and negatives clamp to 1 on the WebSocket
path, negatives clamp to 1 on the HTTP path, and 5000 gives 200 / 1000
respectively. -/
theorem limit_clamping :
    (∀ q : ℚ, requestHistoryLimit (some (.num (.finite q))) = .finite (min (max q 1) 200)) ∧
    requestHistoryLimit none = .finite 200 ∧
    (∀ n : Int, n ≠ 0 → httpClampDefault (some n) = min (max n 1) 1000) ∧
    httpClampDefault (some 0) = 100 ∧
    httpClampDefault none = 100 ∧
    requestHistoryLimit (some (.num (.finite 0))) = .finite 1 ∧
    requestHistoryLimit (some (.num (.finite (-3)))) = .finite 1 ∧
    requestHistoryLimit (some (.num (.finite 5000))) = .finite 200 ∧
    handleEventsLimit (some "-3") = 1 ∧
    handleEventsLimit (some "5000") = 1000 ∧
    handleEventsLimit none = 100 := by
  refine ⟨?_, rfl, ?_, rfl, rfl, by decide, by decide, by decide, by decide, by decide, by decide⟩
  · intro q
    simp [requestHistoryLimit, jsMax, jsMin]
  · intro n hn
    simp [httpClampDefault, hn]

/-- C2 counterexample to the claim as stated: over the HTTP events-query
path a requested limit of 0 is not clamped to 1 — `parseInt(..) || 100`
treats 0 as falsy, so the default 100 applies. -/
theorem limit_claim_cex : handleEventsLimit (some "0") = 100 ∧ (100 : Int) ≠ 1 := by
  exact ⟨by decide, by decide⟩

/-- C2 witness: the general clamping facts applied at concrete inputs. -/
theorem limit_clamping_witness :
    httpClampDefault (some 7) = min (max (7 : Int) 1) 1000 ∧
    requestHistoryLimit (some (.num (.finite 42))) = .finite (min (max (42 : ℚ) 1) 200) := by
  exact ⟨limit_clamping.2.2.1 7 (by decide), limit_clamping.1 42⟩

/-! The webhook ingestion handler (handleWebhook in the worker). -/

def MAX_WEBHOOK_PAYLOAD_SIZE : Nat := 8192

def startsWithList : List Char → List Char → Bool
  | [], _ => true
  | _ :: _, [] => false
  | p :: ps, c :: cs => p == c && startsWithList ps cs

/-- `s.includes(pat)` on the underlying character lists -/
def containsSubList (pat : List Char) : List Char → Bool
  | [] => startsWithList pat []
  | c :: cs => startsWithList pat (c :: cs) || containsSubList pat cs

/-- `contentType && contentType.includes("application/json")` (a missing
or empty header is falsy) -/
def contentTypeDeclaresJson (ct : Option String) : Bool :=
  match ct with
  | none => false
  | some s => containsSubList ("application/json").data s.data

/-- `authHeader?.startsWith("Bearer ") ? authHeader.slice(7) : null` -/
def bearerToken (auth : Option String) : Option String :=
  match auth with
  | some a => if startsWithList ("Bearer ").data a.data then some ⟨a.data.drop 7⟩ else none
  | none => none

/-- An inbound webhook request.  `contentLength` models the
Content-Length header, which the platform guarantees matches the body
size; `body` is the JSON.parse result (`none` = malformed JSON). -/
structure WebhookRequest where
  contentLength : Nat
  contentType : Option String
  authorization : Option String
  body : Option Json

/-- Observable outcome of the handler: HTTP status, number of KV puts
performed, number of broadcasts sent to the dashboard room. -/
structure WebhookOutcome where
  status : Nat
  storeWrites : Nat
  broadcasts : Nat
deriving DecidableEq, Repr

/-- POST /webhook: size cap, content-type check, optional bearer-secret
check (`tokenEq` abstracts the HMAC-based constant-time comparison), JSON
parse, payload validation, then one store write and one broadcast. -/
def handleWebhook (dp : String → Bool) (tokenEq : String → String → Bool)
    (secret : Option String) (req : WebhookRequest) : WebhookOutcome :=
  if MAX_WEBHOOK_PAYLOAD_SIZE < req.contentLength then ⟨413, 0, 0⟩
  else if !(contentTypeDeclaresJson req.contentType) then ⟨415, 0, 0⟩
  else
    let authFail : Bool :=
      match secret with
      | some sec =>
          (match bearerToken req.authorization with
           | none => true
           | some t => !(tokenEq t sec))
      | none => false
    if authFail then ⟨401, 0, 0⟩
    else
      match req.body with
      | none => ⟨400, 0, 0⟩
      | some payload =>
          if !((validateWebhookPayload dp payload).valid) then ⟨400, 0, 0⟩
          else ⟨200, 1, 1⟩

/-- C3: a request whose body exceeds 8192 bytes is answered 413 with no
store write and no broadcast, regardless of the body (no parsing); a
request within the cap whose Content-Type does not declare
application/json is answered 415, again with no store write and no
broadcast.  The size check precedes the content-type check. -/
theorem webhook_preconditions (dp : String → Bool) (tokenEq : String → String → Bool)
    (secret : Option String) (req : WebhookRequest) :
    (MAX_WEBHOOK_PAYLOAD_SIZE < req.contentLength →
      handleWebhook dp tokenEq secret req = ⟨413, 0, 0⟩) ∧
    (req.contentLength ≤ MAX_WEBHOOK_PAYLOAD_SIZE →
      contentTypeDeclaresJson req.contentType = false →
      handleWebhook dp tokenEq secret req = ⟨415, 0, 0⟩) := by
  constructor
  · intro h
    unfold handleWebhook
    rw [if_pos h]
  · intro h hct
    unfold handleWebhook
    rw [if_neg (not_lt.mpr h), if_pos (by simp [hct])]

/-- C3 witness: a 9000-byte request is rejected 413 without parsing its
(malformed) body, and a text/plain request is rejected 415; neither
writes to the store or broadcasts. -/
theorem webhook_preconditions_witness :
    handleWebhook acceptAllDates (fun a b => a == b) none
      ⟨9000, some "application/json", none, none⟩ = ⟨413, 0, 0⟩ ∧
    handleWebhook acceptAllDates (fun a b => a == b) none
      ⟨100, some "text/plain", none, some finishedPayloadOK⟩ = ⟨415, 0, 0⟩ := by
  constructor
  · exact (webhook_preconditions acceptAllDates (fun a b => a == b) none
      ⟨9000, some "application/json", none, none⟩).1 (by decide)
  · exact (webhook_preconditions acceptAllDates (fun a b => a == b) none
      ⟨100, some "text/plain", none, some finishedPayloadOK⟩).2 (by decide) (by decide)

/-! Stored events (the KV values) and the history pipeline shared by
DashboardRoom.sendHistory and GET /api/events. -/

structure EnrollmentActionR where
  label : String
  status : String
deriving DecidableEq, Repr

/-- the `enrollmentActions` field of a stored finished payload: absent
(`"enrollmentActions" in payload` is false), JSON null (present but
falsy), or an array of actions (truthy, even when empty) -/
inductive EnrollActions where
  | absent
  | null
  | actions (l : List EnrollmentActionR)
deriving DecidableEq, Repr

structure EventPayload where
  event : String
  serialNumber : String
  enrollmentActions : EnrollActions
deriving DecidableEq, Repr

structure StoredEv where
  payload : EventPayload
  timestamp : Int
  eventId : String
deriving DecidableEq, Repr

/-- the sort comparator `(a, b) => b.timestamp - a.timestamp` as the
before-or-equal relation it induces -/
def byTimestampDesc (a b : StoredEv) : Bool := decide (b.timestamp ≤ a.timestamp)

/-- History(limit): the store list returns up to `limit` keys; a key's
value may be gone or fail JSON.parse (`none`); survivors are sorted
newest-first.  `store` is the per-key read-and-parse outcome, in listing
order. -/
def historyEvents (store : List (Option StoredEv)) (limit : Nat) : List StoredEv :=
  ((store.take limit).filterMap id).mergeSort byTimestampDesc

/-- C4: the history operation reads at most `limit` entries, drops
undeserializable ones, and returns exactly the surviving entries (a
permutation of them) sorted by receipt timestamp descending, so the head
is a most-recent element. -/
theorem history_ordered (store : List (Option StoredEv)) (limit : Nat) :
    List.Pairwise (fun a b : StoredEv => b.timestamp ≤ a.timestamp)
      (historyEvents store limit) ∧
    (historyEvents store limit).Perm ((store.take limit).filterMap id) ∧
    (∀ h0, (historyEvents store limit).head? = some h0 →
      ∀ e ∈ historyEvents store limit, e.timestamp ≤ h0.timestamp) := by
  have htrans : ∀ (a b c : StoredEv), byTimestampDesc a b = true →
      byTimestampDesc b c = true → byTimestampDesc a c = true := by
    intro a b c h1 h2
    simp only [byTimestampDesc, decide_eq_true_eq] at h1 h2 ⊢
    exact le_trans h2 h1
  have htot : ∀ (a b : StoredEv), (byTimestampDesc a b || byTimestampDesc b a) = true := by
    intro a b
    simp only [byTimestampDesc, Bool.or_eq_true, decide_eq_true_eq]
    exact le_total b.timestamp a.timestamp
  have hpair := List.sorted_mergeSort htrans htot ((store.take limit).filterMap id)
  have hsorted : List.Pairwise (fun a b : StoredEv => b.timestamp ≤ a.timestamp)
      (historyEvents store limit) := by
    unfold historyEvents
    exact hpair.imp (by intro a b h; simpa [byTimestampDesc] using h)
  refine ⟨hsorted, List.mergeSort_perm _ _, ?_⟩
  intro h0 hh e he
  cases hl : historyEvents store limit with
  | nil =>
      rw [hl] at hh
      exact absurd hh (by simp)
  | cons x xs =>
      rw [hl] at hh he hsorted
      injection hh with hx
      subst hx
      rcases List.mem_cons.mp he with rfl | hmem
      · exact le_refl _
      · exact (List.pairwise_cons.mp hsorted).1 e hmem

/-- sample stored events for the history witness -/
def evA : StoredEv := ⟨⟨"com.jamf.setupmanager.started", "SER-A", .absent⟩, 100, "a"⟩

def evB : StoredEv := ⟨⟨"com.jamf.setupmanager.finished", "SER-B", .actions []⟩, 300, "b"⟩

def evC : StoredEv := ⟨⟨"com.jamf.setupmanager.finished", "SER-C", .null⟩, 200, "c"⟩

def demoStore : List (Option StoredEv) := [some evA, none, some evB, some evC]

unseal List.merge List.mergeSort in
/-- C4 witness: on a concrete store with one unparseable entry, the head
of the history is the newest event and dominates the others. -/
theorem history_ordered_witness :
    (historyEvents demoStore 10).head? = some evB ∧ evA.timestamp ≤ evB.timestamp := by
  constructor
  · rfl
  · exact (history_ordered demoStore 10).2.2 evB rfl evA (by decide)

/-! Broadcast (DashboardRoom.fetch on /broadcast): iterate over the
registered sessions, send to each in a try/catch, counting successes and
failures. -/

structure BroadcastResult where
  clients : Nat
  success : Nat
  errors : Nat
deriving DecidableEq, Repr

/-- the for-loop over sessions: `sendOk ws` tells whether `ws.send`
throws; each iteration increments one of the two counters -/
def broadcastCounts {σ : Type} (sendOk : σ → Bool) (sessions : List σ) : Nat × Nat :=
  sessions.foldl
    (fun acc ws => if sendOk ws then (acc.1 + 1, acc.2) else (acc.1, acc.2 + 1)) (0, 0)

/-- the /broadcast handler: counts plus the registered-session list after
the operation (the loop never unregisters a session) -/
def broadcastToRoom {σ : Type} (sendOk : σ → Bool) (sessions : List σ) :
    BroadcastResult × List σ :=
  (⟨sessions.length, (broadcastCounts sendOk sessions).1,
    (broadcastCounts sendOk sessions).2⟩, sessions)

theorem broadcastCounts_eq {σ : Type} (sendOk : σ → Bool) (l : List σ) :
    broadcastCounts sendOk l = (l.countP sendOk, l.countP (fun ws => !(sendOk ws))) := by
  suffices h : ∀ (l : List σ) (a b : Nat),
      l.foldl (fun acc ws => if sendOk ws then (acc.1 + 1, acc.2) else (acc.1, acc.2 + 1)) (a, b)
        = (a + l.countP sendOk, b + l.countP (fun ws => !(sendOk ws))) by
    simpa [broadcastCounts] using h l 0 0
  intro l
  induction l with
  | nil => intro a b; simp
  | cons hd tl ih =>
      intro a b
      cases hok : sendOk hd <;>
        · simp only [List.foldl_cons, hok, List.countP_cons, if_true, if_false,
            Bool.not_true, Bool.not_false, ih]
          simp [Prod.ext_iff]
          omega

/-- C7: a broadcast attempts delivery to every registered session — a
failing session makes the loop count an error and continue, so the
attempted count is the full session count, successes are the sessions
whose send did not throw, failures the rest, and the registered set is
unchanged (no session is removed on failure). -/
theorem broadcast_spec {σ : Type} (sendOk : σ → Bool) (sessions : List σ) :
    (broadcastToRoom sendOk sessions).1.clients = sessions.length ∧
    (broadcastToRoom sendOk sessions).1.success = sessions.countP sendOk ∧
    (broadcastToRoom sendOk sessions).1.errors
      = sessions.countP (fun ws => !(sendOk ws)) ∧
    (broadcastToRoom sendOk sessions).1.success + (broadcastToRoom sendOk sessions).1.errors
      = sessions.length ∧
    (broadcastToRoom sendOk sessions).2 = sessions := by
  have hc := broadcastCounts_eq sendOk sessions
  refine ⟨rfl, ?_, ?_, ?_, rfl⟩
  · show (broadcastCounts sendOk sessions).1 = _
    rw [hc]
  · show (broadcastCounts sendOk sessions).2 = _
    rw [hc]
  · show (broadcastCounts sendOk sessions).1 + (broadcastCounts sendOk sessions).2 = _
    rw [hc]
    have hl := sessions.length_eq_countP_add_countP sendOk
    have hcc : sessions.countP (fun a => decide ¬(sendOk a = true))
        = sessions.countP (fun ws => !(sendOk ws)) :=
      List.countP_congr (by intro x hx; simp)
    rw [hcc] at hl
    exact hl.symm

/-! Viewer reconnect backoff (useWebSocket.ts, ws.onclose). -/

def maxReconnectAttempts : Nat := 10

/-- one onclose event: given the current consecutive-failure counter,
either schedule a reconnect after `min(1000 * 2^attempts, 30000)` ms and
bump the counter, or (after 10 failures) schedule nothing -/
def onCloseStep (attempts : Nat) : Option Nat × Nat :=
  if attempts < maxReconnectAttempts then
    (some (min (1000 * 2 ^ attempts) 30000), attempts + 1)
  else (none, attempts)

/-- the scheduled delays over `n` consecutive close events starting from
counter value `c` (`none` = no reconnect scheduled) -/
def closeDelays : Nat → Nat → List (Option Nat)
  | 0, _ => []
  | n + 1, c => (onCloseStep c).1 :: closeDelays n (onCloseStep c).2

theorem closeDelays_stopped (m : Nat) : closeDelays m 10 = List.replicate m none := by
  induction m with
  | zero => rfl
  | succ n ih =>
      simp [closeDelays, onCloseStep, maxReconnectAttempts, ih, List.replicate_succ]

/-- C8: over consecutive failures the scheduled delays are 1s, 2s, 4s,
8s, 16s, then 30s for attempts 6–10 (delay before attempt n is
min(2^(n-1) seconds, 30 s)), and after the 10th consecutive failure no
further reconnect is scheduled. -/
theorem reconnect_backoff :
    closeDelays 10 0 = [some 1000, some 2000, some 4000, some 8000, some 16000,
      some 30000, some 30000, some 30000, some 30000, some 30000] ∧
    (∀ n, n < 10 → (closeDelays 10 0).get? n = some (some (min (1000 * 2 ^ n) 30000))) ∧
    (∀ m, closeDelays (m + 10) 0 =
      [some 1000, some 2000, some 4000, some 8000, some 16000,
       some 30000, some 30000, some 30000, some 30000, some 30000]
        ++ List.replicate m none) := by
  refine ⟨by decide, by decide, ?_⟩
  intro m
  rw [← closeDelays_stopped m]
  rfl

/-- C8 witness: the 6th failure's delay hits the 30 s cap. -/
theorem reconnect_backoff_witness :
    (closeDelays 10 0).get? 5 = some (some (min (1000 * 2 ^ 5) 30000)) :=
  reconnect_backoff.2.1 5 (by decide)

/-! Server-side stats (GET /api/stats): the successRate computation. -/

def isFinishedEvent (e : StoredEv) : Bool :=
  e.payload.event == "com.jamf.setupmanager.finished"

/-- the per-event success test in handleStats:
`("enrollmentActions" in payload && payload.enrollmentActions)
  ? payload.enrollmentActions.every(a => a.status === "finished") : true`.
An absent field fails the `in` test, null is falsy, and an array is
truthy even when empty (`[].every` is true). -/
def enrollmentSuccess (e : StoredEv) : Bool :=
  match e.payload.enrollmentActions with
  | .absent => true
  | .null => true
  | .actions l => l.all (fun a => a.status == "finished")

/-- `Math.round` for the non-negative values produced here -/
def jsRound (q : ℚ) : Int := Int.floor (q + 1/2)

/-- the `successRate` field of the stats object: initialized to 0 and
only recomputed when at least one finished event exists -/
def statsSuccessRate (events : List StoredEv) : Int :=
  if (events.filter isFinishedEvent).length = 0 then 0
  else
    jsRound ((((events.filter isFinishedEvent).countP enrollmentSuccess : ℚ)
      / ((events.filter isFinishedEvent).length : ℚ)) * 100)

/-- the spec's wording: the enrollment actions of an event (none when the
field is absent or null) -/
def specEventActions (e : StoredEv) : List EnrollmentActionR :=
  match e.payload.enrollmentActions with
  | .actions l => l
  | _ => []

/-- the spec's wording: every enrollment action of the event has status
finished (vacuously true without actions) -/
def specEventSuccess (e : StoredEv) : Bool :=
  (specEventActions e).all (fun a => a.status == "finished")

theorem enrollmentSuccess_eq_spec (e : StoredEv) :
    enrollmentSuccess e = specEventSuccess e := by
  unfold enrollmentSuccess specEventSuccess specEventActions
  cases e.payload.enrollmentActions <;> rfl

/-- C1 (amended): when the window holds at least one finished event,
successRate is the rounded percentage of finished events whose every
enrollment action has status finished; when it holds none, successRate
is 0 (not 100 as claimed). -/
theorem successRate_formula (events : List StoredEv) :
    ((events.filter isFinishedEvent).length ≠ 0 →
      statsSuccessRate events =
        jsRound ((((events.filter isFinishedEvent).countP specEventSuccess : ℚ)
          / ((events.filter isFinishedEvent).length : ℚ)) * 100)) ∧
    ((events.filter isFinishedEvent).length = 0 → statsSuccessRate events = 0) := by
  constructor
  · intro h
    unfold statsSuccessRate
    rw [if_neg h]
    have hcp : (events.filter isFinishedEvent).countP enrollmentSuccess
        = (events.filter isFinishedEvent).countP specEventSuccess :=
      List.countP_congr (by intro x hx; simp [enrollmentSuccess_eq_spec])
    rw [hcp]
  · intro h
    unfold statsSuccessRate
    rw [if_pos h]

/-- C1 counterexample to the claim as stated: a window with a single
started event contains no finished events, and its successRate is 0,
not 100. -/
theorem successRate_claim_cex :
    (List.filter isFinishedEvent [evA]).length = 0 ∧
    statsSuccessRate [evA] = 0 ∧ (0 : Int) ≠ 100 := by
  refine ⟨by decide, by rfl, by decide⟩

/-- C1 witness: the successRate formula applied to a concrete window with
one finished event. -/
theorem successRate_formula_witness :
    statsSuccessRate [evB] =
      jsRound ((((List.filter isFinishedEvent [evB]).countP specEventSuccess : ℚ)
        / ((List.filter isFinishedEvent [evB]).length : ℚ)) * 100) :=
  (successRate_formula [evB]).1 (by decide)

/-- C10: a finished event whose enrollmentActions field is absent, null,
or an empty array passes the success test of handleStats, so it counts
towards the successRate numerator whenever the window has a finished
event. -/
theorem emptyActions_success (events : List StoredEv) (e : StoredEv)
    (he : e ∈ events) (hf : isFinishedEvent e = true)
    (ha : e.payload.enrollmentActions = .absent ∨ e.payload.enrollmentActions = .null ∨
      e.payload.enrollmentActions = .actions []) :
    enrollmentSuccess e = true ∧
    1 ≤ (events.filter isFinishedEvent).countP enrollmentSuccess ∧
    statsSuccessRate events =
      jsRound ((((events.filter isFinishedEvent).countP enrollmentSuccess : ℚ)
        / ((events.filter isFinishedEvent).length : ℚ)) * 100) := by
  have hes : enrollmentSuccess e = true := by
    unfold enrollmentSuccess
    rcases ha with h | h | h <;> simp [h]
  have hmem : e ∈ events.filter isFinishedEvent := List.mem_filter.mpr ⟨he, hf⟩
  have hpos : 0 < (events.filter isFinishedEvent).countP enrollmentSuccess :=
    List.countP_pos_iff.mpr ⟨e, hmem, hes⟩
  have hlen : (events.filter isFinishedEvent).length ≠ 0 := by
    intro h0
    rw [List.length_eq_zero] at h0
    rw [h0] at hmem
    simp at hmem
  refine ⟨hes, hpos, ?_⟩
  unfold statsSuccessRate
  rw [if_neg hlen]

/-- C10 witness: a finished event with an empty actions array counts as a
success in a concrete window. -/
theorem emptyActions_success_witness :
    enrollmentSuccess evB = true ∧
    1 ≤ (List.filter isFinishedEvent [evA, evB]).countP enrollmentSuccess := by
  have h := emptyActions_success [evA, evB] evB (by decide) (by rfl)
    (Or.inr (Or.inr rfl))
  exact ⟨h.1, h.2.1⟩

end SMH
